import Mathlib

/-!
Shallow embedding of `src/Controller/Python/controller.py` (CS-EXTC2-ICMP):
an ICMP covert-channel relay that reassembles agent data from tagged ICMP
Echo-Request fragments, proxies it over a length-framed TCP stream to a
backend, and returns the reply as fragmented ICMP Echo-Replies.

Modelling conventions:
- bytes are `Nat`, byte strings are `List Nat`;
- the blocking `sniff` loop is modelled by handing the decoder the finite
  list of raw ICMP payloads that will arrive (already matching the sniff
  filter); `none` means the loop would block forever (stream exhausted);
- the TCP socket is modelled by the finite list of bytes the peer will
  send; `socket.recv(n)` returns up to `n` bytes from the front, and an
  empty result models a closed peer;
- Python exceptions (`OverflowError` from `to_bytes`, `struct.error` from
  `pack`, `ConnectionError`, `ValueError`) and non-termination are
  modelled as `none` / `Except.error`;
- socket file descriptors, logging and `time.sleep` are not modelled.
-/

namespace Controller

/-- Byte view of an ASCII string (`s.encode()` in the source). -/
def strBytes (s : String) : List Nat := s.toList.map Char.toNat

/-- Constant `ICMP_TAG = "RQ47"` from the source, as bytes. -/
def ICMP_TAG_BYTES : List Nat := strBytes "RQ47"

/-- Constant `TAG_SIZE = len(ICMP_TAG)` from the source. -/
def TAG_SIZE : Nat := ICMP_TAG_BYTES.length

/-- Constant `ICMP_PAYLOAD_SIZE = 1000` from the source. -/
def ICMP_PAYLOAD_SIZE : Nat := 1000

/-- Constant `MAX_DATA_PER_CHUNK = ICMP_PAYLOAD_SIZE - TAG_SIZE` from the source. -/
def MAX_DATA_PER_CHUNK : Nat := ICMP_PAYLOAD_SIZE - TAG_SIZE

/-- Constant `BEACON_PIPENAME = "foobar"` from the source. -/
def BEACON_PIPENAME : String := "foobar"

/-- Constant `BEACON_ARCH = "x86"` from the source. -/
def BEACON_ARCH : String := "x86"

/-- Python `int.from_bytes(bs, "big")` for a byte string of any length. -/
def natFromBytesBE (bs : List Nat) : Nat := bs.foldl (fun acc b => acc * 256 + b) 0

/-- Python `n.to_bytes(4, "big")`; callers guard `n < 2^32` (Python raises
`OverflowError` otherwise, which callers model as `none`). -/
def natToBE4 (n : Nat) : List Nat :=
  [n / 16777216 % 256, n / 65536 % 256, n / 256 % 256, n % 256]

/-- Python `struct.pack("<I", n)` (little-endian); callers guard `n < 2^32`. -/
def natToLE4 (n : Nat) : List Nat :=
  [n % 256, n / 256 % 256, n / 65536 % 256, n / 16777216 % 256]

/-- Python `struct.unpack("<I", bs)[0]` for a 4-byte string. -/
def natFromLE4 (bs : List Nat) : Nat :=
  match bs with
  | [a, b, c, d] => a + 256 * b + 65536 * c + 16777216 * d
  | _ => 0

/-- One tunneled ICMP message as built by `send_icmp_packet`: the sequence
number and the chunk bytes passed in (the tag is prepended on the wire,
see `wireLoad`). -/
structure IcmpMsg where
  seq : Nat
  chunk : List Nat
deriving DecidableEq

/-- The raw ICMP data field `full_payload = tag + payload` that
`send_icmp_packet` puts on the wire for one message. -/
def wireLoad (tag : List Nat) (m : IcmpMsg) : List Nat := tag ++ m.chunk

/-- The `while offset < len(full_payload)` loop of `send_fragmented_icmp`:
emits `full_payload[offset : offset + csize]` with sequence numbers
`seq, seq+1, ...`. The structural `fuel` bounds the iteration count;
`full_payload.length` always suffices when `1 ≤ csize`, and the caller
returns `none` instead of running the loop when `csize = 0` and the
payload is nonempty (the Python loop never terminates there). -/
def sendChunkLoop : Nat → Nat → List Nat → Nat → List IcmpMsg
  | 0, _, _, _ => []
  | fuel + 1, csize, data, seq =>
    if data = [] then []
    else ⟨seq, data.take csize⟩ :: sendChunkLoop fuel csize (data.drop csize) (seq + 1)

/-- `Client.send_fragmented_icmp` (lines 131-179): first a seq=0 message
carrying `len(full_payload).to_bytes(4, "big")`, then the data in
`CHUNK_DATA_SIZE = ICMP_PAYLOAD_SIZE - len(tag)` byte chunks with
sequence numbers 1, 2, 3, ... `none` models the `OverflowError` raised by
`to_bytes` for payloads of 2^32 bytes or more, and the non-terminating
loop when the tag eats the whole packet budget. -/
def send_fragmented_icmp (full_payload tag : List Nat) : Option (List IcmpMsg) :=
  if 4294967296 ≤ full_payload.length then none
  else if ICMP_PAYLOAD_SIZE ≤ tag.length ∧ full_payload ≠ [] then none
  else
    some (⟨0, natToBE4 full_payload.length⟩ ::
      sendChunkLoop full_payload.length (ICMP_PAYLOAD_SIZE - tag.length) full_payload 1)

/-- The `while len(assembled_data) < expected_len` loop of
`recv_fragmented_icmp`: takes the next raw ICMP load from the (already
filter-matched) inbound list, strips the fixed `TAG_SIZE` bytes, clamps
the chunk to `bytes_needed = expected_len - len(assembled_data)` and
appends it. Returns the assembled bytes together with the unconsumed
loads; `none` models blocking forever on an exhausted stream. -/
def recvLoop (expected : Nat) : List (List Nat) → List Nat → Option (List Nat × List (List Nat))
  | [], assembled =>
    if assembled.length < expected then none else some (assembled, [])
  | raw_load :: rest, assembled =>
    if assembled.length < expected then
      recvLoop expected rest
        (assembled ++ (raw_load.drop TAG_SIZE).take (expected - assembled.length))
    else some (assembled, raw_load :: rest)

/-- `Client.recv_fragmented_icmp` (lines 181-228): blocks until exactly
`expected_len` bytes have been assembled from the inbound loads. -/
def recv_fragmented_icmp (expected_len : Nat) (loads : List (List Nat)) :
    Option (List Nat × List (List Nat)) :=
  recvLoop expected_len loads []

/-- `Client.ts_send_frame` (lines 265-269): the bytes put on the TCP
stream, `struct.pack("<I", len(data))` followed by `data`. `none` models
the `struct.error` raised for `len(data) ≥ 2^32`. -/
def ts_send_frame (data : List Nat) : Option (List Nat) :=
  if 4294967296 ≤ data.length then none
  else some (natToLE4 data.length ++ data)

/-- The `while len(buffer) < size` loop of `ts_recv_frame`: each
`self.sock.recv(size - len(buffer))` yields up to that many bytes from
the front of the modelled stream; an empty chunk (peer closed) raises
`ConnectionError`, modelled as `none`. The structural `fuel` bounds the
iteration count; every genuine read consumes at least one stream byte, so
`stream.length + 1` always suffices. -/
def tsRecvLoop : Nat → List Nat → Nat → List Nat → Option (List Nat × List Nat)
  | 0, stream, size, buffer =>
    if size ≤ buffer.length then some (buffer, stream) else none
  | fuel + 1, stream, size, buffer =>
    if size ≤ buffer.length then some (buffer, stream)
    else
      let chunk := stream.take (size - buffer.length)
      if chunk = [] then none
      else tsRecvLoop fuel (stream.drop (size - buffer.length)) size (buffer ++ chunk)

/-- `Client.ts_recv_frame` (lines 245-263): reads the 4-byte little-endian
length prefix (`ConnectionError`, i.e. `none`, if fewer than 4 bytes are
available), then loops until `size` payload bytes are in. Returns the
frame and the unconsumed rest of the stream. -/
def ts_recv_frame (stream : List Nat) : Option (List Nat × List Nat) :=
  let raw_size := stream.take 4
  if raw_size.length < 4 then none
  else tsRecvLoop (stream.length + 1) (stream.drop 4) (natFromLE4 raw_size) []

/-- The sentinel command `b"I WANT A PAYLOAD"` compared in `handle_data`. -/
def SENTINEL : List Nat := strBytes "I WANT A PAYLOAD"

/-- Per-agent state of `class Client` (lines 24-43). The TCP socket opened
by `ts_socket_setup` is not part of the model (its traffic is passed to
the functions explicitly); the remaining `__init__` fields are kept. -/
structure Session where
  client_ip : Nat
  icmp_id : Nat
  tag : List Nat
  expected_inbound_data_size : Nat
  data_from_client : List Nat
  payload : List Nat
deriving DecidableEq

/-- The four bootstrap frames sent by `get_payload`, in source order. -/
def payloadRequestFrames : List (List Nat) :=
  [strBytes ("arch=" ++ BEACON_ARCH),
   strBytes ("pipename=" ++ BEACON_PIPENAME),
   strBytes "block=100",
   strBytes "go"]

/-- `Client.get_payload` (lines 100-116): sends the four bootstrap frames
(`payloadRequestFrames`) to the backend, then receives exactly one frame
and stores it in `self.payload`. Returns the updated session, the frame
payloads sent, and the unconsumed backend stream. -/
def get_payload (s : Session) (tsIn : List Nat) :
    Option (Session × List (List Nat) × List Nat) :=
  match ts_recv_frame tsIn with
  | none => none
  | some (p, rest) => some ({ s with payload := p }, payloadRequestFrames, rest)

/-- Observable outcome of one `handle_data` checkin cycle: the session
state afterwards, the frame payloads sent to the backend (in order), and
the ICMP messages sent back to the agent. -/
structure HandleResult where
  session : Session
  tsSent : List (List Nat)
  icmpSent : List IcmpMsg
deriving DecidableEq

/-- `Client.handle_data` (lines 45-98): clears `data_from_client`,
reassembles the inbound data, then either answers a sentinel
`b"I WANT A PAYLOAD"` checkin by fetching (always refetching) the payload
from the backend via `get_payload`, or proxies the reassembled bytes to
the backend and fragments the backend reply back to the agent. Both
outbound fragmentations use the default tag `ICMP_TAG`. Note that
`recv_fragmented_icmp` accumulates the same clamped chunks into
`data_from_client` as into its local buffer, so after reassembly
`data_from_client` equals the assembled bytes. -/
def handle_data (s : Session) (icmpIn : List (List Nat)) (tsIn : List Nat) :
    Option HandleResult :=
  let s0 : Session := { s with data_from_client := [] }
  match recv_fragmented_icmp s0.expected_inbound_data_size icmpIn with
  | none => none
  | some (assembled, _) =>
    let s1 : Session := { s0 with data_from_client := assembled }
    if assembled = SENTINEL then
      match get_payload s1 tsIn with
      | none => none
      | some (s2, sentFrames, _) =>
        match send_fragmented_icmp s2.payload ICMP_TAG_BYTES with
        | none => none
        | some msgs => some ⟨s2, sentFrames, msgs⟩
    else
      match ts_send_frame assembled with
      | none => none
      | some _ =>
        match ts_recv_frame tsIn with
        | none => none
        | some (reply, _) =>
          match send_fragmented_icmp reply ICMP_TAG_BYTES with
          | none => none
          | some msgs => some ⟨s1, [assembled], msgs⟩

/-- The global `dict_of_clients` registry, modelled as an association list
in insertion order (a Python dict appends new keys at the end). -/
abbrev Registry := List (Nat × Session)

/-- Dict lookup `dict_of_clients[key]`. -/
def lookupClient (reg : Registry) (k : Nat) : Option Session :=
  (reg.find? (fun e => e.1 == k)).map (fun e => e.2)

/-- In-place mutation of the client stored under `k` (Python mutates the
object held in the dict, leaving every other entry alone). -/
def updateClient (reg : Registry) (k : Nat) (f : Session → Session) : Registry :=
  reg.map (fun e => if e.1 = k then (e.1, f e.2) else e)

/-- `Client.__init__` (lines 25-43) minus the socket setup: a fresh
session with empty buffers. -/
def mkClient (client_ip icmp_id : Nat) (tag : List Nat) (expected : Nat) : Session :=
  { client_ip := client_ip, icmp_id := icmp_id, tag := tag,
    expected_inbound_data_size := expected,
    data_from_client := [], payload := [] }

/-- The seq=0 branch of `packet_filter` (lines 322-358) given the already
parsed announced size `expected` (an `Int`, as Python ints are signed):
raise `ValueError` on a negative size, else update the
`expected_inbound_data_size` of the existing client from `raw_load[TAG_SIZE : TAG_SIZE + 4]`, or
create and register a fresh `Client`. The error string elides the
interpolated value of the Python f-string. -/
def seq0Route (expected : Int) (raw_load : List Nat) (reg : Registry)
    (client_ip icmp_id : Nat) : Except String Registry :=
  if expected < 0 then Except.error "Invalid length in seq=0"
  else if (lookupClient reg icmp_id).isSome then
    Except.ok (updateClient reg icmp_id (fun c =>
      { c with expected_inbound_data_size :=
          natFromBytesBE ((raw_load.drop TAG_SIZE).take 4) }))
  else
    Except.ok (reg ++ [(icmp_id,
      mkClient client_ip icmp_id ICMP_TAG_BYTES expected.toNat)])

/-- One sniffed packet as seen by `packet_filter`: `raw_load = none`
models a packet without a Raw layer. All packets reaching the filter are
ICMP (the sniff filter is `"icmp"`). -/
structure Packet where
  src : Nat
  icmpType : Nat
  icmp_id : Nat
  icmp_seq : Nat
  raw_load : Option (List Nat)

/-- `packet_filter` (lines 303-358): drop packets that are not
Echo-Requests with Raw data carrying the tag; on seq=0 (after the 16-bit
mask) parse the announced size from `content[:4]` big-endian and route
through `seq0Route`. Nonzero sequence numbers fall through with no
registry effect (they are consumed by the blocked reassembly
loop, not by the dispatcher). The Python early returns are written as
nested conditionals. -/
def packet_filter (reg : Registry) (p : Packet) : Except String Registry :=
  match p.raw_load with
  | none => Except.ok reg
  | some raw_load =>
    if p.icmpType ≠ 8 then Except.ok reg
    else if ICMP_TAG_BYTES.isPrefixOf raw_load then
      let icmp_id := p.icmp_id % 65536
      let icmp_seq := p.icmp_seq % 65536
      if icmp_seq = 0 then
        let content := raw_load.drop TAG_SIZE
        let expected : Int := (natFromBytesBE (content.take 4) : Int)
        seq0Route expected raw_load reg p.src icmp_id
      else Except.ok reg
    else Except.ok reg

/-! ## Helper lemmas on the framing channel -/

theorem natFromLE4_natToLE4 (n : Nat) (h : n < 4294967296) :
    natFromLE4 (natToLE4 n) = n := by
  simp only [natToLE4, natFromLE4]
  omega

theorem tsRecvLoop_done (fuel : Nat) (stream : List Nat) (size : Nat)
    (buffer : List Nat) (h : size ≤ buffer.length) :
    tsRecvLoop fuel stream size buffer = some (buffer, stream) := by
  cases fuel <;> simp [tsRecvLoop, h]

theorem tsRecvLoop_step (fuel : Nat) (stream : List Nat) (size : Nat)
    (buffer : List Nat) :
    tsRecvLoop (fuel + 1) stream size buffer =
      if size ≤ buffer.length then some (buffer, stream)
      else if stream.take (size - buffer.length) = [] then none
      else tsRecvLoop fuel (stream.drop (size - buffer.length)) size
        (buffer ++ stream.take (size - buffer.length)) := rfl

theorem tsRecvLoop_exact (fuel : Nat) (B : List Nat) (hf : 1 ≤ fuel) :
    tsRecvLoop fuel B B.length [] = some (B, []) := by
  cases fuel with
  | zero => omega
  | succ f =>
    cases B with
    | nil => simp [tsRecvLoop]
    | cons b bs =>
      rw [tsRecvLoop_step]
      rw [if_neg (by simp), List.length_nil, Nat.sub_zero, List.take_length,
        if_neg (by simp), List.drop_length, List.nil_append]
      exact tsRecvLoop_done f [] (b :: bs).length (b :: bs) (le_refl _)

theorem tsRecvLoop_some_length (fuel : Nat) :
    ∀ (stream : List Nat) (size : Nat) (buffer : List Nat) (f rest : List Nat),
      buffer.length ≤ size →
      tsRecvLoop fuel stream size buffer = some (f, rest) → f.length = size := by
  induction fuel with
  | zero =>
    intro stream size buffer f rest hle h
    simp only [tsRecvLoop] at h
    split at h
    · cases h; omega
    · exact absurd h (by simp)
  | succ n ih =>
    intro stream size buffer f rest hle h
    simp only [tsRecvLoop] at h
    split at h
    · cases h; omega
    · split at h
      · exact absurd h (by simp)
      · exact ih _ size _ f rest (by simp; omega) h

theorem ts_recv_frame_some_length (stream : List Nat) (F rest : List Nat)
    (h : ts_recv_frame stream = some (F, rest)) :
    F.length = natFromLE4 (stream.take 4) := by
  simp only [ts_recv_frame] at h
  split at h
  · exact absurd h (by simp)
  · exact tsRecvLoop_some_length _ _ _ _ _ _ (by simp) h

theorem ts_recv_frame_round (B : List Nat) (h : B.length < 4294967296) :
    ts_recv_frame (natToLE4 B.length ++ B) = some (B, []) := by
  have hlen : (natToLE4 B.length).length = 4 := rfl
  have htake : (natToLE4 B.length ++ B).take 4 = natToLE4 B.length := by
    rw [← hlen]; exact List.take_left _ _
  have hdrop : (natToLE4 B.length ++ B).drop 4 = B := by
    rw [← hlen]; exact List.drop_left _ _
  simp only [ts_recv_frame, htake, hdrop, hlen]
  rw [if_neg (by omega), natFromLE4_natToLE4 B.length h]
  exact tsRecvLoop_exact _ B (by simp)

/-! ## Helper lemmas on the fragmentation codec -/

theorem sendChunkLoop_nil (fuel csize seq : Nat) :
    sendChunkLoop fuel csize [] seq = [] := by
  cases fuel <;> simp [sendChunkLoop]

theorem sendChunkLoop_eq_nil_iff (fuel csize seq : Nat) (data : List Nat)
    (hfuel : data.length ≤ fuel) :
    sendChunkLoop fuel csize data seq = [] ↔ data = [] := by
  constructor
  · intro h
    by_contra hne
    cases fuel with
    | zero => exact hne (List.length_eq_zero.mp (Nat.le_zero.mp hfuel))
    | succ f =>
      simp only [sendChunkLoop, if_neg hne] at h
      exact absurd h (by simp)
  · intro h
    subst h
    exact sendChunkLoop_nil _ _ _

theorem sendChunkLoop_flatten (fuel : Nat) :
    ∀ (csize : Nat) (data : List Nat) (seq : Nat), 1 ≤ csize → data.length ≤ fuel →
      ((sendChunkLoop fuel csize data seq).map IcmpMsg.chunk).flatten = data := by
  induction fuel with
  | zero =>
    intro csize data seq hc hf
    have hdata : data = [] := List.length_eq_zero.mp (Nat.le_zero.mp hf)
    subst hdata
    simp [sendChunkLoop]
  | succ f ih =>
    intro csize data seq hc hf
    by_cases hd : data = []
    · subst hd; simp [sendChunkLoop]
    · have hone : 1 ≤ data.length := by
        cases data with
        | nil => exact absurd rfl hd
        | cons a l => simp
      simp only [sendChunkLoop, if_neg hd, List.map_cons, List.flatten_cons]
      rw [ih csize (data.drop csize) (seq + 1) hc
        (by simp only [List.length_drop]; omega)]
      exact List.take_append_drop csize data

theorem sendChunkLoop_chunk_ne_nil (fuel : Nat) :
    ∀ (csize : Nat) (data : List Nat) (seq : Nat), 1 ≤ csize →
      ∀ m ∈ sendChunkLoop fuel csize data seq, m.chunk ≠ [] := by
  induction fuel with
  | zero => intro csize data seq hc m hm; simp [sendChunkLoop] at hm
  | succ f ih =>
    intro csize data seq hc m hm
    by_cases hd : data = []
    · subst hd; simp [sendChunkLoop] at hm
    · simp only [sendChunkLoop, if_neg hd, List.mem_cons] at hm
      rcases hm with hm | hm
      · subst hm
        cases data with
        | nil => exact absurd rfl hd
        | cons a l =>
          cases csize with
          | zero => omega
          | succ n => simp
      · exact ih csize _ _ hc m hm

theorem sendChunkLoop_shape (fuel : Nat) :
    ∀ (csize : Nat) (data : List Nat) (seq : Nat), 1 ≤ csize → data.length ≤ fuel →
      ∀ (i : Nat) (m : IcmpMsg), (sendChunkLoop fuel csize data seq)[i]? = some m →
        m.seq = seq + i
      ∧ m.chunk.length ≤ csize
      ∧ (i + 1 < (sendChunkLoop fuel csize data seq).length → m.chunk.length = csize) := by
  induction fuel with
  | zero =>
    intro csize data seq hc hf i m hm
    have hdata : data = [] := List.length_eq_zero.mp (Nat.le_zero.mp hf)
    subst hdata
    simp [sendChunkLoop] at hm
  | succ f ih =>
    intro csize data seq hc hf i m hm
    by_cases hd : data = []
    · subst hd; simp [sendChunkLoop] at hm
    · have hone : 1 ≤ data.length := by
        cases data with
        | nil => exact absurd rfl hd
        | cons a l => simp
      have hdrop : (data.drop csize).length ≤ f := by
        simp only [List.length_drop]; omega
      simp only [sendChunkLoop, if_neg hd] at hm ⊢
      cases i with
      | zero =>
        simp only [List.getElem?_cons_zero, Option.some_inj] at hm
        subst hm
        refine ⟨by simp, by simp only [List.length_take]; omega, ?_⟩
        intro hlt
        simp only [List.length_cons, Nat.add_lt_add_iff_right] at hlt
        have hrest : sendChunkLoop f csize (data.drop csize) (seq + 1) ≠ [] := by
          intro hnil
          rw [hnil] at hlt
          simp at hlt
        have hdne : data.drop csize ≠ [] :=
          fun hnil => hrest ((sendChunkLoop_eq_nil_iff f csize (seq + 1) _ hdrop).mpr hnil)
        have : csize < data.length := by
          by_contra hge
          exact hdne (List.drop_eq_nil_of_le (by omega))
        simp only [List.length_take]
        omega
      | succ j =>
        simp only [List.getElem?_cons_succ] at hm
        have := ih csize (data.drop csize) (seq + 1) hc hdrop j m hm
        refine ⟨by omega, this.2.1, ?_⟩
        intro hlt
        simp only [List.length_cons] at hlt
        exact this.2.2 (by omega)

/-! ## Helper lemmas on the reassembly loop -/

theorem recvLoop_some_length (expected : Nat) :
    ∀ (loads : List (List Nat)) (assembled r : List Nat) (rest : List (List Nat)),
      assembled.length ≤ expected →
      recvLoop expected loads assembled = some (r, rest) → r.length = expected := by
  intro loads
  induction loads with
  | nil =>
    intro assembled r rest hle h
    simp only [recvLoop] at h
    split at h
    · simp at h
    · cases h; omega
  | cons l ls ih =>
    intro assembled r rest hle h
    simp only [recvLoop] at h
    split at h
    · refine ih _ r rest ?_ h
      simp only [List.length_append, List.length_take]
      omega
    · cases h; omega

theorem recvLoop_exact (tag : List Nat) (htag : tag.length = TAG_SIZE) :
    ∀ (chunks : List (List Nat)) (assembled : List Nat) (expected : Nat),
      (∀ c ∈ chunks, c ≠ []) →
      expected = assembled.length + chunks.flatten.length →
      recvLoop expected (chunks.map (fun c => tag ++ c)) assembled
        = some (assembled ++ chunks.flatten, []) := by
  intro chunks
  induction chunks with
  | nil =>
    intro assembled expected hne hexp
    simp only [List.flatten_nil, List.length_nil, Nat.add_zero] at hexp
    subst hexp
    simp [recvLoop]
  | cons c cs ih =>
    intro assembled expected hne hexp
    have hc : c ≠ [] := hne c (by simp)
    have hclen : 1 ≤ c.length := by
      cases c with
      | nil => exact absurd rfl hc
      | cons a l => simp
    have hexp2 : expected = assembled.length + (c.length + cs.flatten.length) := by
      rw [hexp, List.flatten_cons, List.length_append]
    simp only [List.map_cons, recvLoop]
    rw [if_pos (by omega)]
    rw [show (tag ++ c).drop TAG_SIZE = c by rw [← htag]; exact List.drop_left _ _]
    rw [List.take_of_length_le (by omega)]
    rw [ih (assembled ++ c) expected (fun x hx => hne x (by simp [hx]))
      (by simp only [List.length_append]; omega)]
    rw [List.flatten_cons, List.append_assoc]

/-! ## Claim theorems -/

/-- C1 (counterexample to the claim as stated): the round-trip fails for a
tag whose length differs from `TAG_SIZE`. With the empty tag and the
5-byte payload `[0,0,0,0,1]`, Encode emits one chunk message, but Decode
strips the fixed `TAG_SIZE = 4` bytes from it, assembles only 1 byte of
the expected 5, exhausts the stream and blocks forever (`none`). -/
theorem round_trip_fails_for_short_tag :
    send_fragmented_icmp [0, 0, 0, 0, 1] []
      = some [{ seq := 0, chunk := [0, 0, 0, 5] }, { seq := 1, chunk := [0, 0, 0, 0, 1] }]
  ∧ recv_fragmented_icmp 5
      ((([{ seq := 0, chunk := [0, 0, 0, 5] },
          { seq := 1, chunk := [0, 0, 0, 0, 1] }] : List IcmpMsg).drop 1).map (wireLoad []))
      = none := by decide

/-- C1 (amended): for every payload and every tag whose length equals
`TAG_SIZE` (the fixed number of bytes Decode strips), feeding the chunk
messages (sequence ≥ 1) emitted by `send_fragmented_icmp` into
`recv_fragmented_icmp` with `expected_size = L` reproduces the payload
exactly, consuming the whole chunk stream. -/
theorem round_trip_fragmentation (full_payload tag : List Nat)
    (htag : tag.length = TAG_SIZE)
    (hlen : full_payload.length < 4294967296) :
    ∃ ms, send_fragmented_icmp full_payload tag
        = some ({ seq := 0, chunk := natToBE4 full_payload.length } :: ms)
      ∧ recv_fragmented_icmp full_payload.length (ms.map (wireLoad tag))
          = some (full_payload, []) := by
  have h1000 : ICMP_PAYLOAD_SIZE = 1000 := rfl
  have h4 : TAG_SIZE = 4 := rfl
  have hc : 1 ≤ ICMP_PAYLOAD_SIZE - tag.length := by omega
  refine ⟨sendChunkLoop full_payload.length (ICMP_PAYLOAD_SIZE - tag.length)
    full_payload 1, ?_, ?_⟩
  · simp only [send_fragmented_icmp]
    rw [if_neg (by omega), if_neg (by intro hcon; have := hcon.1; omega)]
  · have hflat : ((sendChunkLoop full_payload.length (ICMP_PAYLOAD_SIZE - tag.length)
        full_payload 1).map IcmpMsg.chunk).flatten = full_payload :=
      sendChunkLoop_flatten _ _ _ _ hc (le_refl _)
    have hne : ∀ c ∈ (sendChunkLoop full_payload.length (ICMP_PAYLOAD_SIZE - tag.length)
        full_payload 1).map IcmpMsg.chunk, c ≠ [] := by
      intro c hcmem
      rcases List.mem_map.mp hcmem with ⟨m, hm, hmc⟩
      rw [← hmc]
      exact sendChunkLoop_chunk_ne_nil _ _ _ _ hc m hm
    have hmap : (sendChunkLoop full_payload.length (ICMP_PAYLOAD_SIZE - tag.length)
          full_payload 1).map (wireLoad tag)
        = ((sendChunkLoop full_payload.length (ICMP_PAYLOAD_SIZE - tag.length)
          full_payload 1).map IcmpMsg.chunk).map (fun c => tag ++ c) := by
      rw [List.map_map]; rfl
    rw [recv_fragmented_icmp, hmap,
      recvLoop_exact tag htag _ [] full_payload.length hne (by rw [hflat]; simp),
      hflat, List.nil_append]

/-- C1 witness: a concrete instantiation of the amended round-trip with
the default 4-byte tag and a 3-byte payload. -/
theorem round_trip_fragmentation_witness :
    (ICMP_TAG_BYTES.length = TAG_SIZE ∧ ([1, 2, 3] : List Nat).length < 4294967296)
  ∧ ∃ ms, send_fragmented_icmp [1, 2, 3] ICMP_TAG_BYTES
        = some ({ seq := 0, chunk := natToBE4 ([1, 2, 3] : List Nat).length } :: ms)
      ∧ recv_fragmented_icmp ([1, 2, 3] : List Nat).length (ms.map (wireLoad ICMP_TAG_BYTES))
          = some ([1, 2, 3], []) :=
  ⟨⟨by decide, by decide⟩, round_trip_fragmentation [1, 2, 3] ICMP_TAG_BYTES (by decide) (by decide)⟩

/-- C2: framing round-trip. For any byte string B below the 32-bit frame
limit, `ts_send_frame` produces the length-prefixed stream and
`ts_recv_frame` on that stream returns B exactly, consuming it whole;
and a stream holding only 2 bytes of length prefix raises a connection
error (`none`) rather than decoding a length. -/
theorem framing_round_trip (B : List Nat) (h : B.length < 4294967296) :
    ts_send_frame B = some (natToLE4 B.length ++ B)
  ∧ ts_recv_frame (natToLE4 B.length ++ B) = some (B, [])
  ∧ ∀ b0 b1 : Nat, ts_recv_frame [b0, b1] = none := by
  refine ⟨?_, ts_recv_frame_round B h, ?_⟩
  · simp only [ts_send_frame]
    rw [if_neg (by omega)]
  · intro b0 b1
    rfl

/-- C2 witness at the frame `[9, 8, 7]`. -/
theorem framing_round_trip_witness :
    (([9, 8, 7] : List Nat).length < 4294967296)
  ∧ (ts_send_frame [9, 8, 7] = some (natToLE4 ([9, 8, 7] : List Nat).length ++ [9, 8, 7])
     ∧ ts_recv_frame (natToLE4 ([9, 8, 7] : List Nat).length ++ [9, 8, 7]) = some ([9, 8, 7], [])
     ∧ ∀ b0 b1 : Nat, ts_recv_frame [b0, b1] = none) :=
  ⟨by decide, framing_round_trip [9, 8, 7] (by decide)⟩

/-- C6: Encode output shape. For every payload (below the 32-bit size
limit) and every tag short enough for the chunk loop to make progress,
the first emitted message has sequence 0 and carries the 4-byte
big-endian payload length regardless of payload content; every data
message at position i has sequence i+1 (so sequence numbers increase
strictly by 1 starting at 1), no data chunk exceeds
`ICMP_PAYLOAD_SIZE - len(tag)` bytes, and every data chunk except
possibly the final one has exactly that size. -/
theorem encode_output_shape (full_payload tag : List Nat)
    (htag : tag.length < ICMP_PAYLOAD_SIZE)
    (hlen : full_payload.length < 4294967296) :
    ∃ ms, send_fragmented_icmp full_payload tag
        = some ({ seq := 0, chunk := natToBE4 full_payload.length } :: ms)
      ∧ ∀ (i : Nat) (m : IcmpMsg), ms[i]? = some m →
          m.seq = i + 1
        ∧ m.chunk.length ≤ ICMP_PAYLOAD_SIZE - tag.length
        ∧ (i + 1 < ms.length → m.chunk.length = ICMP_PAYLOAD_SIZE - tag.length) := by
  have hc : 1 ≤ ICMP_PAYLOAD_SIZE - tag.length := by omega
  refine ⟨sendChunkLoop full_payload.length (ICMP_PAYLOAD_SIZE - tag.length)
    full_payload 1, ?_, ?_⟩
  · simp only [send_fragmented_icmp]
    rw [if_neg (by omega), if_neg (by intro hcon; have := hcon.1; omega)]
  · intro i m hm
    have := sendChunkLoop_shape full_payload.length (ICMP_PAYLOAD_SIZE - tag.length)
      full_payload 1 hc (le_refl _) i m hm
    exact ⟨by omega, this.2.1, this.2.2⟩

set_option maxRecDepth 8000 in
/-- C6 witness: a 5-byte payload with a 997-byte tag (capacity 3) splits
into chunks of 3 and 2 bytes with sequences 1 and 2 after the seq=0 size
header. -/
theorem encode_output_shape_witness :
    ((List.replicate 997 0 : List Nat).length < ICMP_PAYLOAD_SIZE
       ∧ ([1, 2, 3, 4, 5] : List Nat).length < 4294967296)
  ∧ ∃ ms, send_fragmented_icmp [1, 2, 3, 4, 5] (List.replicate 997 0)
        = some ({ seq := 0, chunk := natToBE4 ([1, 2, 3, 4, 5] : List Nat).length } :: ms)
      ∧ ∀ (i : Nat) (m : IcmpMsg), ms[i]? = some m →
          m.seq = i + 1
        ∧ m.chunk.length ≤ ICMP_PAYLOAD_SIZE - (List.replicate 997 0 : List Nat).length
        ∧ (i + 1 < ms.length →
            m.chunk.length = ICMP_PAYLOAD_SIZE - (List.replicate 997 0 : List Nat).length) :=
  ⟨⟨by decide, by decide⟩,
    encode_output_shape [1, 2, 3, 4, 5] (List.replicate 997 0) (by decide) (by decide)⟩

/-- C7: reassembly clamp invariant. Starting from a buffer within bounds,
one loop step keeps the buffer length at or below `expected` (clamping an
overrunning chunk to exactly the remaining bytes), any buffer the loop
returns has length exactly `expected`, and the loop returns as soon as
the buffer length equals `expected` (consuming nothing further). -/
theorem reassembly_clamp_invariant (expected : Nat) (assembled raw_load : List Nat)
    (loads : List (List Nat)) (h : assembled.length ≤ expected) :
    (assembled ++ (raw_load.drop TAG_SIZE).take (expected - assembled.length)).length
      ≤ expected
  ∧ (expected - assembled.length ≤ (raw_load.drop TAG_SIZE).length →
      (assembled ++ (raw_load.drop TAG_SIZE).take (expected - assembled.length)).length
        = expected)
  ∧ (∀ (r : List Nat) (rest : List (List Nat)),
      recvLoop expected loads assembled = some (r, rest) → r.length = expected)
  ∧ (assembled.length = expected →
      recvLoop expected loads assembled = some (assembled, loads)) := by
  refine ⟨?_, ?_, ?_, ?_⟩
  · simp only [List.length_append, List.length_take]
    omega
  · intro hge
    simp only [List.length_append, List.length_take]
    omega
  · intro r rest hr
    exact recvLoop_some_length expected loads assembled r rest h hr
  · intro heq
    cases loads with
    | nil => simp [recvLoop, heq]
    | cons l ls => simp [recvLoop, heq]

/-- C7 witness: expected 5, a 3-byte buffer, an inbound load whose
post-tag data (4 bytes) would overrun by 2. -/
theorem reassembly_clamp_invariant_witness :
    (([1, 2, 3] : List Nat).length ≤ 5)
  ∧ (((([1, 2, 3] : List Nat) ++ (([0, 0, 0, 0, 9, 9, 9, 9] : List Nat).drop TAG_SIZE).take
        (5 - ([1, 2, 3] : List Nat).length)).length ≤ 5)
     ∧ (5 - ([1, 2, 3] : List Nat).length
          ≤ (([0, 0, 0, 0, 9, 9, 9, 9] : List Nat).drop TAG_SIZE).length →
        ((([1, 2, 3] : List Nat) ++ (([0, 0, 0, 0, 9, 9, 9, 9] : List Nat).drop TAG_SIZE).take
          (5 - ([1, 2, 3] : List Nat).length)).length = 5))
     ∧ (∀ (r : List Nat) (rest : List (List Nat)),
          recvLoop 5 [[0, 0, 0, 0, 7, 7]] [1, 2, 3] = some (r, rest) → r.length = 5)
     ∧ (([1, 2, 3] : List Nat).length = 5 →
          recvLoop 5 [[0, 0, 0, 0, 7, 7]] [1, 2, 3] = some ([1, 2, 3], [[0, 0, 0, 0, 7, 7]]))) :=
  ⟨by decide, reassembly_clamp_invariant 5 [1, 2, 3] [0, 0, 0, 0, 9, 9, 9, 9]
    [[0, 0, 0, 0, 7, 7]] (by decide)⟩

/-! ## Helper lemmas on the checkin cycle -/

theorem send_fragmented_icmp_default_tag (payload : List Nat)
    (h : payload.length < 4294967296) :
    send_fragmented_icmp payload ICMP_TAG_BYTES
      = some ({ seq := 0, chunk := natToBE4 payload.length } ::
          sendChunkLoop payload.length (ICMP_PAYLOAD_SIZE - ICMP_TAG_BYTES.length)
            payload 1) := by
  have h1000 : ICMP_PAYLOAD_SIZE = 1000 := rfl
  have h4 : ICMP_TAG_BYTES.length = 4 := rfl
  simp only [send_fragmented_icmp]
  rw [if_neg (by omega), if_neg (by intro hcon; have := hcon.1; omega)]

theorem handle_data_sentinel (s : Session) (icmpIn : List (List Nat)) (tsIn : List Nat)
    (rest : List (List Nat)) (F trest : List Nat) (msgs : List IcmpMsg)
    (hrecv : recv_fragmented_icmp s.expected_inbound_data_size icmpIn
      = some (SENTINEL, rest))
    (hts : ts_recv_frame tsIn = some (F, trest))
    (hsend : send_fragmented_icmp F ICMP_TAG_BYTES = some msgs) :
    handle_data s icmpIn tsIn =
      some ⟨⟨s.client_ip, s.icmp_id, s.tag, s.expected_inbound_data_size, SENTINEL, F⟩,
            payloadRequestFrames, msgs⟩ := by
  simp only [handle_data, hrecv, get_payload, hts, hsend, if_pos]

theorem handle_data_proxy (s : Session) (icmpIn : List (List Nat)) (tsIn : List Nat)
    (assembled : List Nat) (rest : List (List Nat)) (F trest : List Nat)
    (msgs : List IcmpMsg)
    (hrecv : recv_fragmented_icmp s.expected_inbound_data_size icmpIn
      = some (assembled, rest))
    (hns : assembled ≠ SENTINEL)
    (hA : assembled.length < 4294967296)
    (hts : ts_recv_frame tsIn = some (F, trest))
    (hsend : send_fragmented_icmp F ICMP_TAG_BYTES = some msgs) :
    handle_data s icmpIn tsIn =
      some ⟨⟨s.client_ip, s.icmp_id, s.tag, s.expected_inbound_data_size,
             assembled, s.payload⟩,
            [assembled], msgs⟩ := by
  simp only [handle_data, hrecv, if_neg hns, ts_send_frame, hts, hsend]
  rw [if_neg (by omega)]

/-- C4: sentinel classification. When the reassembled bytes equal the
sentinel `b"I WANT A PAYLOAD"` the checkin takes the payload-response
path: the only frames sent to the backend are the fixed bootstrap frames
(the reassembled data is never forwarded on the proxy path). For any
other reassembled bytes — including near-misses such as the sentinel
followed by a space — the checkin forwards exactly the reassembled bytes
verbatim as the single proxy frame and fragments the backend reply
frame back to the agent. -/
theorem sentinel_classification (s : Session) (icmpIn : List (List Nat))
    (tsIn : List Nat) (assembled : List Nat) (rest : List (List Nat))
    (F trest : List Nat)
    (hrecv : recv_fragmented_icmp s.expected_inbound_data_size icmpIn
      = some (assembled, rest))
    (hts : ts_recv_frame tsIn = some (F, trest))
    (hA : assembled.length < 4294967296)
    (hF : F.length < 4294967296) :
    (assembled = SENTINEL →
      ∃ r, handle_data s icmpIn tsIn = some r
        ∧ r.tsSent = payloadRequestFrames
        ∧ r.session.payload = F
        ∧ send_fragmented_icmp F ICMP_TAG_BYTES = some r.icmpSent)
  ∧ (assembled ≠ SENTINEL →
      ∃ r, handle_data s icmpIn tsIn = some r
        ∧ r.tsSent = [assembled]
        ∧ send_fragmented_icmp F ICMP_TAG_BYTES = some r.icmpSent) := by
  constructor
  · intro hsen
    subst hsen
    refine ⟨_, handle_data_sentinel s icmpIn tsIn rest F trest _ hrecv hts
      (send_fragmented_icmp_default_tag F hF), rfl, rfl, ?_⟩
    exact send_fragmented_icmp_default_tag F hF
  · intro hns
    refine ⟨_, handle_data_proxy s icmpIn tsIn assembled rest F trest _ hrecv hns hA hts
      (send_fragmented_icmp_default_tag F hF), rfl, ?_⟩
    exact send_fragmented_icmp_default_tag F hF

/-- C4 witness: expected size 17, one inbound load carrying the sentinel
plus a trailing space (a near-miss), backend reply frame `[65]`; the
checkin proxies the 17 bytes instead of taking the payload path. -/
theorem sentinel_classification_witness :
    (recv_fragmented_icmp
        ({ client_ip := 1, icmp_id := 2, tag := ICMP_TAG_BYTES,
           expected_inbound_data_size := 17, data_from_client := [],
           payload := [] } : Session).expected_inbound_data_size
        [ICMP_TAG_BYTES ++ (SENTINEL ++ [32])]
      = some (SENTINEL ++ [32], [])
     ∧ ts_recv_frame [1, 0, 0, 0, 65] = some ([65], [])
     ∧ (SENTINEL ++ [32] : List Nat).length < 4294967296
     ∧ ([65] : List Nat).length < 4294967296)
  ∧ ((SENTINEL ++ [32] = SENTINEL →
      ∃ r, handle_data
          { client_ip := 1, icmp_id := 2, tag := ICMP_TAG_BYTES,
            expected_inbound_data_size := 17, data_from_client := [], payload := [] }
          [ICMP_TAG_BYTES ++ (SENTINEL ++ [32])] [1, 0, 0, 0, 65] = some r
        ∧ r.tsSent = payloadRequestFrames
        ∧ r.session.payload = [65]
        ∧ send_fragmented_icmp [65] ICMP_TAG_BYTES = some r.icmpSent)
    ∧ (SENTINEL ++ [32] ≠ SENTINEL →
      ∃ r, handle_data
          { client_ip := 1, icmp_id := 2, tag := ICMP_TAG_BYTES,
            expected_inbound_data_size := 17, data_from_client := [], payload := [] }
          [ICMP_TAG_BYTES ++ (SENTINEL ++ [32])] [1, 0, 0, 0, 65] = some r
        ∧ r.tsSent = [SENTINEL ++ [32]]
        ∧ send_fragmented_icmp [65] ICMP_TAG_BYTES = some r.icmpSent)) :=
  ⟨⟨by decide, by decide, by decide, by decide⟩,
    sentinel_classification
      { client_ip := 1, icmp_id := 2, tag := ICMP_TAG_BYTES,
        expected_inbound_data_size := 17, data_from_client := [], payload := [] }
      [ICMP_TAG_BYTES ++ (SENTINEL ++ [32])] [1, 0, 0, 0, 65]
      (SENTINEL ++ [32]) [] [65] []
      (by decide) (by decide) (by decide) (by decide)⟩

/-- C5 (counterexample to the claim as stated): a payload-request checkin
with a nonempty cached payload `[9, 9, 9]` still sends the four bootstrap
frames to the backend (`tsSent` has 4 entries), overwrites the cache with
the freshly fetched `[65, 66]`, and sends the fresh bytes — not the
cached ones — to the agent. The memoizing path (`send_payload`, lines
118-129 of the source) is never invoked by `handle_data`. -/
theorem payload_refetch_counterexample :
    (handle_data
        { client_ip := 1, icmp_id := 2, tag := ICMP_TAG_BYTES,
          expected_inbound_data_size := 16, data_from_client := [],
          payload := [9, 9, 9] }
        [ICMP_TAG_BYTES ++ SENTINEL]
        [2, 0, 0, 0, 65, 66]).map
      (fun r => (r.tsSent, r.session.payload, r.icmpSent))
      = some (payloadRequestFrames, [65, 66],
          [{ seq := 0, chunk := [0, 0, 0, 2] }, { seq := 1, chunk := [65, 66] }]) := by
  decide

/-- C5 (amended): every payload-request checkin performs the four-frame
bootstrap exchange with the backend, even when a payload is already
cached; the received frame overwrites `cached_payload` and those freshly
fetched bytes are what is fragmented back to the agent. -/
theorem payload_request_always_fetches (s : Session) (icmpIn : List (List Nat))
    (tsIn : List Nat) (rest : List (List Nat)) (F trest : List Nat)
    (hcached : s.payload ≠ [])
    (hrecv : recv_fragmented_icmp s.expected_inbound_data_size icmpIn
      = some (SENTINEL, rest))
    (hts : ts_recv_frame tsIn = some (F, trest))
    (hF : F.length < 4294967296) :
    ∃ r, handle_data s icmpIn tsIn = some r
      ∧ r.tsSent = payloadRequestFrames
      ∧ r.session.payload = F
      ∧ send_fragmented_icmp F ICMP_TAG_BYTES = some r.icmpSent :=
  ⟨_, handle_data_sentinel s icmpIn tsIn rest F trest _ hrecv hts
      (send_fragmented_icmp_default_tag F hF), rfl, rfl,
    send_fragmented_icmp_default_tag F hF⟩

/-- C5 amended-claim witness: cached payload `[9]`, sentinel checkin,
backend frame `[65]`. -/
theorem payload_request_always_fetches_witness :
    ((({ client_ip := 1, icmp_id := 2, tag := ICMP_TAG_BYTES,
         expected_inbound_data_size := 16, data_from_client := [],
         payload := [9] } : Session).payload ≠ [])
     ∧ recv_fragmented_icmp
        ({ client_ip := 1, icmp_id := 2, tag := ICMP_TAG_BYTES,
           expected_inbound_data_size := 16, data_from_client := [],
           payload := [9] } : Session).expected_inbound_data_size
        [ICMP_TAG_BYTES ++ SENTINEL] = some (SENTINEL, [])
     ∧ ts_recv_frame [1, 0, 0, 0, 65] = some ([65], [])
     ∧ ([65] : List Nat).length < 4294967296)
  ∧ ∃ r, handle_data
        { client_ip := 1, icmp_id := 2, tag := ICMP_TAG_BYTES,
          expected_inbound_data_size := 16, data_from_client := [], payload := [9] }
        [ICMP_TAG_BYTES ++ SENTINEL] [1, 0, 0, 0, 65] = some r
      ∧ r.tsSent = payloadRequestFrames
      ∧ r.session.payload = [65]
      ∧ send_fragmented_icmp [65] ICMP_TAG_BYTES = some r.icmpSent :=
  ⟨⟨by decide, by decide, by decide, by decide⟩,
    payload_request_always_fetches
      { client_ip := 1, icmp_id := 2, tag := ICMP_TAG_BYTES,
        expected_inbound_data_size := 16, data_from_client := [], payload := [9] }
      [ICMP_TAG_BYTES ++ SENTINEL] [1, 0, 0, 0, 65] [] [65] []
      (by decide) (by decide) (by decide) (by decide)⟩

/-- C8: bootstrap exchange protocol. Whenever the backend stream yields a
frame F, `get_payload` sends exactly the four frames `arch=x86`,
`pipename=foobar`, `block=100`, `go` (literal ASCII, in this order),
performs exactly one frame receive (consuming precisely one frame from
the stream), stores its bytes as the cached payload and returns them in
the session. -/
theorem bootstrap_exchange_protocol (s : Session) (tsIn : List Nat)
    (F trest : List Nat)
    (hts : ts_recv_frame tsIn = some (F, trest)) :
    get_payload s tsIn
      = some (⟨s.client_ip, s.icmp_id, s.tag, s.expected_inbound_data_size,
               s.data_from_client, F⟩,
          [strBytes "arch=x86", strBytes "pipename=foobar",
           strBytes "block=100", strBytes "go"],
          trest) := by
  simp only [get_payload, hts]
  rfl

/-- C8 witness: a backend stream with one 3-byte frame and one trailing
byte; exactly the frame is consumed. -/
theorem bootstrap_exchange_protocol_witness :
    (ts_recv_frame [3, 0, 0, 0, 7, 8, 9, 4] = some ([7, 8, 9], [4]))
  ∧ get_payload
      { client_ip := 1, icmp_id := 2, tag := ICMP_TAG_BYTES,
        expected_inbound_data_size := 0, data_from_client := [], payload := [] }
      [3, 0, 0, 0, 7, 8, 9, 4]
      = some (⟨1, 2, ICMP_TAG_BYTES, 0, [], [7, 8, 9]⟩,
          [strBytes "arch=x86", strBytes "pipename=foobar",
           strBytes "block=100", strBytes "go"],
          [4]) :=
  ⟨by decide,
    bootstrap_exchange_protocol
      { client_ip := 1, icmp_id := 2, tag := ICMP_TAG_BYTES,
        expected_inbound_data_size := 0, data_from_client := [], payload := [] }
      [3, 0, 0, 0, 7, 8, 9, 4] [7, 8, 9] [4] (by decide)⟩

/-- C10: zero-size reassembly edge case. With `expected_inbound_size = 0`
the reassembly returns the empty byte string immediately, consuming no
inbound packets; the empty checkin is then classified as a proxy (the
empty string is not the sentinel), so an empty frame is forwarded to the
backend and the backend reply is fragmented back to the agent. -/
theorem zero_size_checkin (s : Session) (icmpIn : List (List Nat)) (tsIn : List Nat)
    (F trest : List Nat)
    (hexp : s.expected_inbound_data_size = 0)
    (hts : ts_recv_frame tsIn = some (F, trest))
    (hF : F.length < 4294967296) :
    recv_fragmented_icmp 0 icmpIn = some ([], icmpIn)
  ∧ ∃ r, handle_data s icmpIn tsIn = some r
      ∧ r.tsSent = [[]]
      ∧ send_fragmented_icmp F ICMP_TAG_BYTES = some r.icmpSent := by
  have hrecv0 : recv_fragmented_icmp 0 icmpIn = some ([], icmpIn) := by
    cases icmpIn with
    | nil => rfl
    | cons l ls => rfl
  refine ⟨hrecv0, _, handle_data_proxy s icmpIn tsIn [] icmpIn F trest _
    (by rw [hexp]; exact hrecv0) (by decide) (by decide) hts
    (send_fragmented_icmp_default_tag F hF), rfl, ?_⟩
  exact send_fragmented_icmp_default_tag F hF

/-- C10 witness: a nonempty inbound queue that stays untouched and a
backend reply `[65]`. -/
theorem zero_size_checkin_witness :
    ((({ client_ip := 1, icmp_id := 2, tag := ICMP_TAG_BYTES,
         expected_inbound_data_size := 0, data_from_client := [],
         payload := [] } : Session).expected_inbound_data_size = 0)
     ∧ ts_recv_frame [1, 0, 0, 0, 65] = some ([65], [])
     ∧ ([65] : List Nat).length < 4294967296)
  ∧ (recv_fragmented_icmp 0 [[7, 7, 7]] = some ([], [[7, 7, 7]])
     ∧ ∃ r, handle_data
          { client_ip := 1, icmp_id := 2, tag := ICMP_TAG_BYTES,
            expected_inbound_data_size := 0, data_from_client := [], payload := [] }
          [[7, 7, 7]] [1, 0, 0, 0, 65] = some r
        ∧ r.tsSent = [[]]
        ∧ send_fragmented_icmp [65] ICMP_TAG_BYTES = some r.icmpSent) :=
  ⟨⟨by decide, by decide, by decide⟩,
    zero_size_checkin
      { client_ip := 1, icmp_id := 2, tag := ICMP_TAG_BYTES,
        expected_inbound_data_size := 0, data_from_client := [], payload := [] }
      [[7, 7, 7]] [1, 0, 0, 0, 65] [65] []
      (by decide) (by decide) (by decide)⟩

/-! ## Helper lemmas on the session registry -/

theorem updateClient_length (reg : Registry) (k : Nat) (f : Session → Session) :
    (updateClient reg k f).length = reg.length := by
  simp [updateClient]

theorem lookupClient_cons (e : Nat × Session) (es : Registry) (k : Nat) :
    lookupClient (e :: es) k = if e.1 = k then some e.2 else lookupClient es k := by
  by_cases he : e.1 = k
  · simp [lookupClient, List.find?, he]
  · rw [if_neg he]
    simp only [lookupClient, List.find?]
    rw [show (e.1 == k) = false from beq_eq_false_iff_ne.mpr he]

theorem updateClient_cons (e : Nat × Session) (es : Registry) (k : Nat)
    (f : Session → Session) :
    updateClient (e :: es) k f
      = (if e.1 = k then (e.1, f e.2) else e) :: updateClient es k f := by
  simp [updateClient]

theorem lookupClient_update_self (reg : Registry) (k : Nat) (f : Session → Session) :
    ∀ c, lookupClient reg k = some c →
      lookupClient (updateClient reg k f) k = some (f c) := by
  induction reg with
  | nil => intro c hc; simp [lookupClient] at hc
  | cons e es ih =>
    intro c hc
    rw [lookupClient_cons] at hc
    by_cases he : e.1 = k
    · rw [if_pos he] at hc
      injection hc with hc2
      rw [updateClient_cons, if_pos he, lookupClient_cons, if_pos he, hc2]
    · rw [if_neg he] at hc
      rw [updateClient_cons, if_neg he, lookupClient_cons, if_neg he]
      exact ih c hc

theorem lookupClient_update_ne (reg : Registry) (k : Nat) (f : Session → Session)
    (j : Nat) (hj : j ≠ k) :
    lookupClient (updateClient reg k f) j = lookupClient reg j := by
  induction reg with
  | nil => rfl
  | cons e es ih =>
    by_cases hek : e.1 = k
    · have hnej : ¬ e.1 = j := by intro h; omega
      rw [updateClient_cons, if_pos hek, lookupClient_cons, lookupClient_cons,
        if_neg hnej, if_neg hnej]
      exact ih
    · rw [updateClient_cons, if_neg hek, lookupClient_cons, lookupClient_cons]
      by_cases hej : e.1 = j
      · rw [if_pos hej, if_pos hej]
      · rw [if_neg hej, if_neg hej]
        exact ih

theorem lookupClient_append_self (reg : Registry) (k : Nat) (c : Session)
    (h : lookupClient reg k = none) :
    lookupClient (reg ++ [(k, c)]) k = some c := by
  induction reg with
  | nil => simp [lookupClient, List.find?]
  | cons e es ih =>
    rw [lookupClient_cons] at h
    by_cases he : e.1 = k
    · rw [if_pos he] at h
      exact absurd h (by simp)
    · rw [if_neg he] at h
      rw [List.cons_append, lookupClient_cons, if_neg he]
      exact ih h

theorem lookupClient_append_ne (reg : Registry) (k : Nat) (c : Session)
    (j : Nat) (hj : j ≠ k) :
    lookupClient (reg ++ [(k, c)]) j = lookupClient reg j := by
  induction reg with
  | nil =>
    show lookupClient ((k, c) :: []) j = lookupClient [] j
    rw [lookupClient_cons, if_neg (fun h => hj h.symm)]
  | cons e es ih =>
    rw [List.cons_append, lookupClient_cons, lookupClient_cons]
    by_cases hej : e.1 = j
    · rw [if_pos hej, if_pos hej]
    · rw [if_neg hej, if_neg hej]
      exact ih

/-- C3: session routing. For any seq=0 packet (Echo-Request, tagged,
masked sequence number 0) announcing size
`n = int.from_bytes(raw_load[4:8], "big")`: if the masked agent id is
absent from the registry, exactly one new session is created and
registered under that id (registry grows by one entry, the new id maps to
the freshly constructed client, every other id maps as before); if the id
is already present, no session is created (registry length unchanged),
only the `expected_inbound_data_size` of that session is replaced by n (all
other fields kept), and every other id maps as before. -/
theorem session_routing (reg : Registry) (p : Packet) (raw_load : List Nat)
    (hload : p.raw_load = some raw_load)
    (htype : p.icmpType = 8)
    (htagpre : ICMP_TAG_BYTES.isPrefixOf raw_load = true)
    (hseq : p.icmp_seq % 65536 = 0) :
    (lookupClient reg (p.icmp_id % 65536) = none →
      ∃ reg2, packet_filter reg p = Except.ok reg2
        ∧ reg2.length = reg.length + 1
        ∧ lookupClient reg2 (p.icmp_id % 65536)
            = some (mkClient p.src (p.icmp_id % 65536) ICMP_TAG_BYTES
                (natFromBytesBE ((raw_load.drop TAG_SIZE).take 4)))
        ∧ ∀ j, j ≠ p.icmp_id % 65536 → lookupClient reg2 j = lookupClient reg j)
  ∧ (∀ c, lookupClient reg (p.icmp_id % 65536) = some c →
      ∃ reg2, packet_filter reg p = Except.ok reg2
        ∧ reg2.length = reg.length
        ∧ lookupClient reg2 (p.icmp_id % 65536)
            = some { c with expected_inbound_data_size :=
                natFromBytesBE ((raw_load.drop TAG_SIZE).take 4) }
        ∧ ∀ j, j ≠ p.icmp_id % 65536 → lookupClient reg2 j = lookupClient reg j) := by
  have hpf : packet_filter reg p
      = seq0Route ((natFromBytesBE ((raw_load.drop TAG_SIZE).take 4) : Int))
          raw_load reg p.src (p.icmp_id % 65536) := by
    simp only [packet_filter, hload]
    rw [if_neg (by simp [htype]), if_pos htagpre, if_pos hseq]
  have hpos : ¬ ((natFromBytesBE ((raw_load.drop TAG_SIZE).take 4) : Int) < 0) :=
    not_lt.mpr (Int.natCast_nonneg _)
  constructor
  · intro habs
    refine ⟨reg ++ [(p.icmp_id % 65536,
      mkClient p.src (p.icmp_id % 65536) ICMP_TAG_BYTES
        (natFromBytesBE ((raw_load.drop TAG_SIZE).take 4)))], ?_, ?_, ?_, ?_⟩
    · rw [hpf]
      simp only [seq0Route, if_neg hpos, habs, Option.isSome_none, Bool.false_eq_true,
        if_false, Int.toNat_natCast]
    · simp
    · exact lookupClient_append_self reg _ _ habs
    · intro j hj
      exact lookupClient_append_ne reg _ _ j hj
  · intro c hc
    refine ⟨updateClient reg (p.icmp_id % 65536) (fun cl =>
      { cl with expected_inbound_data_size :=
          natFromBytesBE ((raw_load.drop TAG_SIZE).take 4) }), ?_, ?_, ?_, ?_⟩
    · rw [hpf]
      simp only [seq0Route, if_neg hpos, hc, Option.isSome_some, if_true]
    · exact updateClient_length reg _ _
    · exact lookupClient_update_self reg _ _ c hc
    · intro j hj
      exact lookupClient_update_ne reg _ _ j hj

/-- C3 witness: packet with 16-bit-wrapping id 70000 (masked to 4464),
seq 131072 (masked to 0), announcing size 5, against the empty registry
(absent branch applies; the present branch is vacuous there). -/
theorem session_routing_witness :
    ((({ src := 9, icmpType := 8, icmp_id := 70000, icmp_seq := 131072,
         raw_load := some (ICMP_TAG_BYTES ++ [0, 0, 0, 5]) } : Packet).raw_load
        = some (ICMP_TAG_BYTES ++ [0, 0, 0, 5]))
     ∧ (({ src := 9, icmpType := 8, icmp_id := 70000, icmp_seq := 131072,
           raw_load := some (ICMP_TAG_BYTES ++ [0, 0, 0, 5]) } : Packet).icmpType = 8)
     ∧ ICMP_TAG_BYTES.isPrefixOf (ICMP_TAG_BYTES ++ [0, 0, 0, 5]) = true
     ∧ (({ src := 9, icmpType := 8, icmp_id := 70000, icmp_seq := 131072,
           raw_load := some (ICMP_TAG_BYTES ++ [0, 0, 0, 5]) } : Packet).icmp_seq
          % 65536 = 0))
  ∧ ((lookupClient []
        (({ src := 9, icmpType := 8, icmp_id := 70000, icmp_seq := 131072,
            raw_load := some (ICMP_TAG_BYTES ++ [0, 0, 0, 5]) } : Packet).icmp_id
          % 65536) = none →
      ∃ reg2, packet_filter []
          { src := 9, icmpType := 8, icmp_id := 70000, icmp_seq := 131072,
            raw_load := some (ICMP_TAG_BYTES ++ [0, 0, 0, 5]) } = Except.ok reg2
        ∧ reg2.length = ([] : Registry).length + 1
        ∧ lookupClient reg2 (70000 % 65536)
            = some (mkClient 9 (70000 % 65536) ICMP_TAG_BYTES
                (natFromBytesBE (((ICMP_TAG_BYTES ++ [0, 0, 0, 5]).drop TAG_SIZE).take 4)))
        ∧ ∀ j, j ≠ 70000 % 65536 → lookupClient reg2 j = lookupClient [] j)
    ∧ (∀ c, lookupClient [] (70000 % 65536) = some c →
      ∃ reg2, packet_filter []
          { src := 9, icmpType := 8, icmp_id := 70000, icmp_seq := 131072,
            raw_load := some (ICMP_TAG_BYTES ++ [0, 0, 0, 5]) } = Except.ok reg2
        ∧ reg2.length = ([] : Registry).length
        ∧ lookupClient reg2 (70000 % 65536)
            = some { c with expected_inbound_data_size :=
                natFromBytesBE (((ICMP_TAG_BYTES ++ [0, 0, 0, 5]).drop TAG_SIZE).take 4) }
        ∧ ∀ j, j ≠ 70000 % 65536 → lookupClient reg2 j = lookupClient [] j)) :=
  ⟨⟨rfl, rfl, by decide, by decide⟩,
    session_routing []
      { src := 9, icmpType := 8, icmp_id := 70000, icmp_seq := 131072,
        raw_load := some (ICMP_TAG_BYTES ++ [0, 0, 0, 5]) }
      (ICMP_TAG_BYTES ++ [0, 0, 0, 5]) rfl rfl (by decide) (by decide)⟩

/-- C9: invalid announced size rejection. The seq=0 routing raises (an
`Except.error`, before any session is created or any registry entry is
touched) whenever the announced size value is negative — and, making the
defensive nature of the guard explicit, the unsigned big-endian parse that feeds
it can in fact never produce a negative value. -/
theorem negative_size_rejected (expected : Int) (raw_load : List Nat)
    (reg : Registry) (client_ip icmp_id : Nat)
    (h : expected < 0) :
    seq0Route expected raw_load reg client_ip icmp_id
      = Except.error "Invalid length in seq=0"
  ∧ ∀ bs : List Nat, (0 : Int) ≤ (natFromBytesBE bs : Int) :=
  ⟨by simp [seq0Route, h], fun _ => Int.natCast_nonneg _⟩

/-- C9 witness at announced size -1 on a nonempty registry. -/
theorem negative_size_rejected_witness :
    ((-1 : Int) < 0)
  ∧ (seq0Route (-1) [0, 1, 2, 3, 4, 5, 6, 7]
        [(3, mkClient 1 3 ICMP_TAG_BYTES 5)] 1 3
      = Except.error "Invalid length in seq=0"
     ∧ ∀ bs : List Nat, (0 : Int) ≤ (natFromBytesBE bs : Int)) :=
  ⟨by decide, negative_size_rejected (-1) [0, 1, 2, 3, 4, 5, 6, 7]
    [(3, mkClient 1 3 ICMP_TAG_BYTES 5)] 1 3 (by decide)⟩

end Controller
